import Mathlib

/-!
Verification of the asynchronous job lifecycle manager of the
Video-Compressor repository (`src/api_server.py`, with the size/ratio
arithmetic shared with `src/video_compressor.py`).

The embedding is shallow:
* job statuses are the five strings used by the code, as an inductive type;
* a job record is the dict stored in `active_jobs`, with the keys the code
  ever writes (the opaque `compression_options` bag is carried nowhere by
  the verified claims and is omitted);
* the registry `active_jobs` is an association list from job id to record;
  `active_processes` is the list of job ids currently holding a process
  handle;
* `time.time()` timestamps are naturals (seconds); file sizes in MB
  (`os.path.getsize(...) / (1024*1024)`) are rationals, modelling the
  Python floats' exact values;
* the runner `process_video_async` is embedded twice, at two granularities:
  - as a sequential function with an explicit fault point, modelling the
    `try/except` paths (for the process-handle and result-metadata claims);
  - as a small-step interleaved transition system in which the runner, the
    cancellation endpoint and the janitor each advance one registry
    operation at a time (for the race/monotonicity claims), the step
    boundaries being exactly the lock-protected registry accesses of the
    Python code.
-/

namespace VideoCompressor

/-- The five job statuses of `api_server.py`. -/
inductive Status
  | queued
  | processing
  | completed
  | failed
  | cancelled
deriving DecidableEq, Repr

/-- The terminal statuses, the list `['completed', 'failed', 'cancelled']`
used by `clean_old_jobs` (line 83). -/
def Status.isTerminal : Status → Bool
  | .completed => true
  | .failed => true
  | .cancelled => true
  | _ => false

/-- One entry of `active_jobs`: the keys written by `update_job_status`
call sites in `api_server.py`.  `status` and `updated_at` are written by
every call; the rest are optional keyword fields (absent keys are `none`). -/
structure JobRecord where
  status : Status
  updated_at : Nat
  progress : Option Nat := none
  message : Option String := none
  original_info_size : Option ℚ := none
  original_size : Option ℚ := none
  compressed_size : Option ℚ := none
  compression_ratio : Option ℚ := none
  compression_percent : Option ℚ := none
  output_filename : Option String := none
  filename : Option String := none
  input_path : Option String := none
  output_path : Option String := none
deriving DecidableEq, Repr

/-- The `**kwargs` of one `update_job_status` call: `some` means the key
is passed (and overwrites), `none` means the key is not mentioned. -/
structure JobUpdate where
  progress : Option Nat := none
  message : Option String := none
  original_info_size : Option ℚ := none
  original_size : Option ℚ := none
  compressed_size : Option ℚ := none
  compression_ratio : Option ℚ := none
  compression_percent : Option ℚ := none
  output_filename : Option String := none
  filename : Option String := none
  input_path : Option String := none
  output_path : Option String := none
deriving DecidableEq, Repr

/-- Semantics of `dict.update` for one key: a passed keyword overwrites, an
absent one keeps the old value. -/
def mergeField {α : Type} (new old : Option α) : Option α :=
  match new with
  | some v => some v
  | none => old

/-- Embeds `active_jobs[job_id].update({'status': ..., 'updated_at': time.time(), **kwargs})`
applied to an existing record (lines 71-75). -/
def mergeJob (r : JobRecord) (st : Status) (now : Nat) (u : JobUpdate) : JobRecord :=
  { status := st
    updated_at := now
    progress := mergeField u.progress r.progress
    message := mergeField u.message r.message
    original_info_size := mergeField u.original_info_size r.original_info_size
    original_size := mergeField u.original_size r.original_size
    compressed_size := mergeField u.compressed_size r.compressed_size
    compression_ratio := mergeField u.compression_ratio r.compression_ratio
    compression_percent := mergeField u.compression_percent r.compression_percent
    output_filename := mergeField u.output_filename r.output_filename
    filename := mergeField u.filename r.filename
    input_path := mergeField u.input_path r.input_path
    output_path := mergeField u.output_path r.output_path }

/-- The record produced when `update_job_status` first creates
`active_jobs[job_id] = {}` (line 69) and then merges: only the passed
fields are present. -/
def freshJob (st : Status) (now : Nat) (u : JobUpdate) : JobRecord :=
  { status := st
    updated_at := now
    progress := u.progress
    message := u.message
    original_info_size := u.original_info_size
    original_size := u.original_size
    compressed_size := u.compressed_size
    compression_ratio := u.compression_ratio
    compression_percent := u.compression_percent
    output_filename := u.output_filename
    filename := u.filename
    input_path := u.input_path
    output_path := u.output_path }

/-- The `active_jobs` dict: job id (opaque, modelled as `Nat`) to record. -/
abbrev Registry := List (Nat × JobRecord)

/-- Embeds `get_job_status` (lines 60-63); the Python returns `{}` when the id is
absent, modelled as `none`. -/
def get_job_status (m : Registry) (id : Nat) : Option JobRecord :=
  m.lookup id

/-- Embeds `update_job_status` (lines 65-75): if the id is absent a fresh record
is created, otherwise the existing record is merged in place. -/
def update_job_status (m : Registry) (id : Nat) (now : Nat) (st : Status) (u : JobUpdate) :
    Registry :=
  match m.lookup id with
  | some r => m.map (fun p => if p.1 = id then (id, mergeJob r st now u) else p)
  | none => m ++ [(id, freshJob st now u)]

/-- Embeds `clean_old_jobs` (lines 77-84): delete every record whose status is in
`['completed', 'failed', 'cancelled']` and whose age exceeds 3600 seconds. -/
def clean_old_jobs (m : Registry) (now : Nat) : Registry :=
  m.filter (fun p => !(Status.isTerminal p.2.status && decide (3600 < now - p.2.updated_at)))

/-- Keys of `active_processes`: the job ids with a registered process handle. -/
abbrev ProcSet := List Nat

/-- Embeds `register_process` (lines 86-89): `active_processes[job_id] = process`
(the key set gains `id`; re-registering overwrites the handle, leaving the
key set unchanged). -/
def register_process (procs : ProcSet) (id : Nat) : ProcSet :=
  if id ∈ procs then procs else id :: procs

/-- Embeds `unregister_process` (lines 91-95): delete the key if present. -/
def unregister_process (procs : ProcSet) (id : Nat) : ProcSet :=
  procs.filter (fun x => x ≠ id)

/-- Embeds `cancel_process` (lines 97-114): returns whether a kill request was
issued successfully — `false` when no handle is registered or the kill
raised (`killOk` is the environment's answer for the latter).  It never
mutates either registry. -/
def cancel_process (procs : ProcSet) (id : Nat) (killOk : Bool) : Bool :=
  if id ∈ procs then killOk else false

/-- Outcome of the `/api/cancel/<job_id>` endpoint. -/
inductive CancelResult
  | notFound
  | invalidState (s : Status)
  | success
deriving DecidableEq, Repr

/-- Embeds `cancel_job` (lines 326-352): 404 when the id is unknown, 400 when the
snapshot status is not `queued`/`processing`; otherwise a kill is
attempted (result ignored) and the record is unconditionally set to
`cancelled` with the explanatory message. -/
def cancel_job (m : Registry) (procs : ProcSet) (id : Nat) (killOk : Bool) (now : Nat) :
    CancelResult × Registry :=
  match m.lookup id with
  | none => (.notFound, m)
  | some job =>
    if job.status ∈ [Status.queued, Status.processing] then
      let _ := cancel_process procs id killOk
      (.success, update_job_status m id now .cancelled { message := some "Job cancelled by user" })
    else
      (.invalidState job.status, m)

/-- Models `os.path.getsize(...) / (1024 * 1024)` as an exact rational. -/
def size_mb (bytes : Nat) : ℚ :=
  (bytes : ℚ) / (1024 * 1024)

/-- Line 199 of `api_server.py` (and line 133 of `video_compressor.py`):
`original_size / compressed_size if compressed_size > 0 else 0`. -/
def compression_ratio (original_size compressed_size : ℚ) : ℚ :=
  if compressed_size > 0 then original_size / compressed_size else 0

/-- Line 200: `((original_size - compressed_size) / original_size) * 100
if original_size > 0 else 0`. -/
def compression_percent (original_size compressed_size : ℚ) : ℚ :=
  if original_size > 0 then (original_size - compressed_size) / original_size * 100 else 0

/-- Where, if anywhere, an exception is raised inside the `try` block of
`process_video_async`: while probing the input (line 122), launching
FFmpeg (line 161), awaiting it (line 176), or probing the output
(line 197).  `none` is the exception-free run. -/
inductive Fault
  | none
  | probeInput
  | popen
  | communicate
  | probeOutput
deriving DecidableEq, Repr

/-- The environment of one run of the Job Runner: everything decided
outside the core (FFmpeg's exit code and diagnostics, the artifact sizes
reported by `os.path.getsize`, filesystem outcomes, whether a kill
request succeeds, and the fault point if any). -/
structure Env where
  rc : Int
  stderr : String
  originalBytes : Nat
  compressedBytes : Nat
  outFileExists : Bool
  deleteOk : Bool
  output_filename : String
  killOk : Bool
  fault : Fault := .none
  faultMsg : String := ""
deriving DecidableEq, Repr

/-- Lines 176-212 of `process_video_async`, from `process.communicate()`
returning: unregister the handle, re-read the job status; on `cancelled`,
best-effort-delete the output and return with no status update; on a
non-zero exit, mark `failed`; otherwise probe the output (a fault here
falls to the `except` handler of line 214) and mark `completed` with the
result metadata.  Takes the registry as it stands at that moment (a
concurrent cancel may have rewritten it) and returns the new registry,
the new process-registry key set, and whether the output file exists. -/
def runner_after_encoder (m : Registry) (procs : ProcSet) (id : Nat) (now : Nat) (e : Env)
    (fileExists : Bool) : Registry × ProcSet × Bool :=
  let procs1 := unregister_process procs id
  if (get_job_status m id).map JobRecord.status = some .cancelled then
    (m, procs1, fileExists && !e.deleteOk)
  else if e.rc ≠ 0 then
    (update_job_status m id now .failed { message := some ("FFmpeg error: " ++ e.stderr) },
      procs1, fileExists)
  else if e.fault = .probeOutput then
    (update_job_status m id now .failed { message := some e.faultMsg },
      unregister_process procs1 id, fileExists)
  else
    let original_size := size_mb e.originalBytes
    let compressed_size := size_mb e.compressedBytes
    (update_job_status m id now .completed
      { progress := some 100
        message := some "Compression complete"
        original_size := some original_size
        compressed_size := some compressed_size
        compression_ratio := some (compression_ratio original_size compressed_size)
        compression_percent := some (compression_percent original_size compressed_size)
        output_filename := some e.output_filename },
      procs1, fileExists)

/-- Embeds `process_video_async` (lines 116-219) as a sequential function: the
`try` body in order — mark `processing` 0, probe the input, mark
`processing` 10, launch FFmpeg, register the handle, await, then
`runner_after_encoder`.  An exception at the fault point jumps to the
`except` handler (lines 214-219): mark `failed` with the exception text,
then unregister the handle. -/
def process_video_async (m : Registry) (procs : ProcSet) (id : Nat) (e : Env) (now : Nat) :
    Registry × ProcSet × Bool :=
  let m1 := update_job_status m id now .processing { progress := some 0 }
  if e.fault = .probeInput then
    (update_job_status m1 id now .failed { message := some e.faultMsg },
      unregister_process procs id, false)
  else
    let m2 := update_job_status m1 id now .processing
      { progress := some 10, original_info_size := some (size_mb e.originalBytes) }
    if e.fault = .popen then
      (update_job_status m2 id now .failed { message := some e.faultMsg },
        unregister_process procs id, false)
    else
      let procs1 := register_process procs id
      if e.fault = .communicate then
        (update_job_status m2 id now .failed { message := some e.faultMsg },
          unregister_process procs1 id, e.outFileExists)
      else
        runner_after_encoder m2 procs1 id now e e.outFileExists

/-!
Interleaved small-step model of one job.  Each step is one lock-protected
registry access of the Python code (the `job_lock` / `process_lock`
critical sections), so a concurrent cancel request or janitor sweep can
land between any two of them — exactly the interleavings the threaded
code admits.
-/

/-- Program counter of the runner thread `process_video_async` (fault-free
run), named after the registry access each step performs. -/
inductive RPc
  | setProcessing0
  | setProcessing10
  | registerProc
  | encoderWait
  | unregisterProc
  | reread
  | setFailed
  | setCompleted
  | done
deriving DecidableEq, Repr

/-- Program counter of the cancel endpoint `cancel_job`. -/
inductive CPc
  | check
  | kill
  | writeCancelled
  | cdone
deriving DecidableEq, Repr

/-- Global state of the one-job system: the two registries, whether the
output artifact exists, both program counters, the cancel endpoint's
response once returned, and a clock (advanced on every step, stamped
into `updated_at` on every registry write). -/
structure Sys where
  reg : Registry
  proc : Bool
  fileExists : Bool
  rpc : RPc
  cpc : CPc
  cres : Option CancelResult
  clock : Nat
deriving DecidableEq, Repr

/-- One step of the runner thread for job `id`.  Identity once `done`.
The `reread` step is the status read of line 182: it decides the branch
but the terminal write (line 193 or 202) is a later, separate lock
acquisition — the race window the code leaves open. -/
def runnerStep (id : Nat) (e : Env) (s : Sys) : Sys :=
  match s.rpc with
  | .setProcessing0 =>
    { s with reg := update_job_status s.reg id s.clock .processing { progress := some 0 },
             rpc := .setProcessing10, clock := s.clock + 1 }
  | .setProcessing10 =>
    { s with reg := update_job_status s.reg id s.clock .processing
               { progress := some 10, original_info_size := some (size_mb e.originalBytes) },
             rpc := .registerProc, clock := s.clock + 1 }
  | .registerProc =>
    { s with proc := true, rpc := .encoderWait, clock := s.clock + 1 }
  | .encoderWait =>
    { s with rpc := .unregisterProc, clock := s.clock + 1 }
  | .unregisterProc =>
    { s with proc := false, rpc := .reread, clock := s.clock + 1 }
  | .reread =>
    if (get_job_status s.reg id).map JobRecord.status = some .cancelled then
      { s with fileExists := s.fileExists && !e.deleteOk, rpc := .done, clock := s.clock + 1 }
    else if e.rc ≠ 0 then
      { s with rpc := .setFailed, clock := s.clock + 1 }
    else
      { s with rpc := .setCompleted, clock := s.clock + 1 }
  | .setFailed =>
    { s with reg := update_job_status s.reg id s.clock .failed
               { message := some ("FFmpeg error: " ++ e.stderr) },
             rpc := .done, clock := s.clock + 1 }
  | .setCompleted =>
    { s with reg := update_job_status s.reg id s.clock .completed
               { progress := some 100
                 message := some "Compression complete"
                 original_size := some (size_mb e.originalBytes)
                 compressed_size := some (size_mb e.compressedBytes)
                 compression_ratio := some (compression_ratio (size_mb e.originalBytes)
                   (size_mb e.compressedBytes))
                 compression_percent := some (compression_percent (size_mb e.originalBytes)
                   (size_mb e.compressedBytes))
                 output_filename := some e.output_filename },
             rpc := .done, clock := s.clock + 1 }
  | .done => s

/-- One step of the cancel endpoint for job `id`.  Identity once done.
`check` is the snapshot read of lines 329-341, `kill` the
`cancel_process` attempt (result ignored, no registry mutation), and
`writeCancelled` the unconditional `update_job_status(..., 'cancelled')`
of line 347, after which success is returned. -/
def cancelStep (id : Nat) (e : Env) (s : Sys) : Sys :=
  match s.cpc with
  | .check =>
    match get_job_status s.reg id with
    | none => { s with cpc := .cdone, cres := some .notFound, clock := s.clock + 1 }
    | some job =>
      if job.status ∈ [Status.queued, Status.processing] then
        { s with cpc := .kill, clock := s.clock + 1 }
      else
        { s with cpc := .cdone, cres := some (.invalidState job.status), clock := s.clock + 1 }
  | .kill =>
    let _ := cancel_process (if s.proc then [id] else []) id e.killOk
    { s with cpc := .writeCancelled, clock := s.clock + 1 }
  | .writeCancelled =>
    { s with reg := update_job_status s.reg id s.clock .cancelled
               { message := some "Job cancelled by user" },
             cpc := .cdone, cres := some .success, clock := s.clock + 1 }
  | .cdone => s

/-- One janitor sweep (`clean_old_jobs`), fired at an arbitrary time `t`. -/
def janitorStep (t : Nat) (s : Sys) : Sys :=
  { s with reg := clean_old_jobs s.reg t, clock := s.clock + 1 }

/-- Full interleaving: either thread advances, or the janitor sweeps. -/
def Step (id : Nat) (e : Env) (s s' : Sys) : Prop :=
  s' = runnerStep id e s ∨ s' = cancelStep id e s ∨ ∃ t, s' = janitorStep t s

/-- Runner and cancel endpoint only (no janitor eviction). -/
def StepRC (id : Nat) (e : Env) (s s' : Sys) : Prop :=
  s' = runnerStep id e s ∨ s' = cancelStep id e s

/-- Runner and janitor only (no cancel request). -/
def StepRJ (id : Nat) (e : Env) (s s' : Sys) : Prop :=
  s' = runnerStep id e s ∨ ∃ t, s' = janitorStep t s

/-- System state right after `/api/compress` returned: the record was
created `queued` with the submission fields (lines 287-294), the runner
thread is about to run, and a cancel request may arrive at any time. -/
def initSys (id : Nat) : Sys :=
  { reg := update_job_status [] id 0 .queued
      { filename := some "a.mp4"
        input_path := some "uploads/a.mp4"
        output_path := some "compressed/compressed_a.mp4" }
    proc := false
    fileExists := false
    rpc := .setProcessing0
    cpc := .check
    cres := none
    clock := 1 }

/-- Run a concrete schedule: `true` advances the runner, `false` the
cancel endpoint. -/
def runSched (id : Nat) (e : Env) : Sys → List Bool → Sys
  | s, [] => s
  | s, b :: bs => runSched id e (if b then runnerStep id e s else cancelStep id e s) bs

/-- Concrete environment for counterexamples and witnesses: the Encoder
finishes naturally with exit code 0, a 100 MiB input becomes a 1 MiB
output, deletions succeed, kill requests fail silently. -/
def e0 : Env :=
  { rc := 0
    stderr := ""
    originalBytes := 104857600
    compressedBytes := 1048576
    outFileExists := true
    deleteOk := true
    output_filename := "compressed_a.mp4"
    killOk := false }

/-- State reached by letting the cancel endpoint run to completion first
(snapshot check, kill attempt, cancelled write) while the runner thread,
already spawned, has not yet executed its first statement. -/
def cexCancelled : Sys :=
  runSched 0 e0 (initSys 0) [false, false, false]

/-- Continuation of `cexCancelled`: the runner thread then runs to
completion undisturbed. -/
def cexFinal : Sys :=
  runSched 0 e0 cexCancelled [true, true, true, true, true, true, true]

/-- State in which the cancel endpoint completed while the Encoder was
running: runner past its `processing` writes and registration, cancel
write already landed. -/
def cexMidCancel : Sys :=
  runSched 0 e0 (initSys 0) [true, true, true, false, false, false]

/-! Helper lemmas about the registry operations. -/

lemma lookup_map_replace (id : Nat) (v : JobRecord) :
    ∀ (m : Registry) (r : JobRecord), m.lookup id = some r →
      (m.map (fun p => if p.1 = id then (id, v) else p)).lookup id = some v := by
  intro m
  induction m with
  | nil => intro r h; simp at h
  | cons p t ih =>
    intro r h
    obtain ⟨a, b⟩ := p
    by_cases hai : a = id
    · subst hai
      simp [List.lookup_cons]
    · have hba : (id == a) = false := by simp [Ne.symm hai]
      rw [List.lookup_cons] at h
      simp only [hba] at h
      simp only [List.map_cons, if_neg hai, List.lookup_cons, hba]
      exact ih r h

lemma lookup_map_replace_ne (id id' : Nat) (v : JobRecord) (h : id' ≠ id) :
    ∀ m : Registry,
      (m.map (fun p => if p.1 = id then (id, v) else p)).lookup id' = m.lookup id' := by
  intro m
  induction m with
  | nil => simp
  | cons p t ih =>
    obtain ⟨a, b⟩ := p
    by_cases hai : a = id
    · subst hai
      rw [List.map_cons]
      have hif : (if ((a, b) : Nat × JobRecord).1 = a then (a, v) else (a, b)) = (a, v) :=
        if_pos rfl
      have hba : (id' == a) = false := by simp [h]
      rw [hif, List.lookup_cons, List.lookup_cons]
      simp only [hba]
      exact ih
    · simp only [List.map_cons, if_neg hai, List.lookup_cons]
      cases hba : (id' == a) with
      | true => rfl
      | false => exact ih

/-- Value found at `id` right after `update_job_status`: the merged record
when the id was known, the fresh record otherwise. -/
lemma lookup_update_self (m : Registry) (id now : Nat) (st : Status) (u : JobUpdate) :
    (update_job_status m id now st u).lookup id =
      some ((m.lookup id).elim (freshJob st now u) (fun r => mergeJob r st now u)) := by
  unfold update_job_status
  cases h : m.lookup id with
  | none =>
    rw [List.lookup_append, h]
    simp
  | some r =>
    simpa using lookup_map_replace id _ m r h

/-- Entries other than `id` are untouched by `update_job_status`. -/
lemma lookup_update_ne (m : Registry) (id id' now : Nat) (st : Status) (u : JobUpdate)
    (h : id' ≠ id) :
    (update_job_status m id now st u).lookup id' = m.lookup id' := by
  unfold update_job_status
  cases hm : m.lookup id with
  | none =>
    rw [List.lookup_append]
    have hba : (id' == id) = false := by simp [h]
    have hone : ([(id, freshJob st now u)] : Registry).lookup id' = none := by
      rw [List.lookup_cons]
      simp [hba]
    rw [hone, Option.or_none]
  | some r =>
    exact lookup_map_replace_ne id id' _ h m

lemma not_mem_unregister (procs : ProcSet) (id : Nat) :
    id ∉ unregister_process procs id := by
  simp [unregister_process, List.mem_filter]

/-! Helper lemmas about the size arithmetic. -/

lemma size_mb_nonneg (b : Nat) : 0 ≤ size_mb b := by
  unfold size_mb
  positivity

lemma size_mb_pos (b : Nat) (h : 0 < b) : 0 < size_mb b := by
  unfold size_mb
  have hb : (0 : ℚ) < (b : ℚ) := by exact_mod_cast h
  positivity

lemma size_mb_lt (a b : Nat) (h : a < b) : size_mb a < size_mb b := by
  unfold size_mb
  have hab : (a : ℚ) < (b : ℚ) := by exact_mod_cast h
  have hK : (0 : ℚ) < 1024 * 1024 := by norm_num
  exact (div_lt_div_iff_of_pos_right hK).mpr hab

lemma ratio_zero_guard (o c : ℚ) (hc : 0 ≤ c) :
    compression_ratio o c = if c = 0 then 0 else o / c := by
  unfold compression_ratio
  rcases eq_or_lt_of_le hc with h | h
  · rw [← h]
    simp
  · rw [if_pos h, if_neg (ne_of_gt h)]

lemma percent_zero_guard (o c : ℚ) (ho : 0 ≤ o) :
    compression_percent o c = if o = 0 then 0 else (o - c) / o * 100 := by
  unfold compression_percent
  rcases eq_or_lt_of_le ho with h | h
  · rw [← h]
    simp
  · rw [if_pos h, if_neg (ne_of_gt h)]

/-! Reachability of concrete schedules. -/

lemma reach_runSched (id : Nat) (e : Env) :
    ∀ (bs : List Bool) (s : Sys), Relation.ReflTransGen (Step id e) s (runSched id e s bs) := by
  intro bs
  induction bs with
  | nil => intro s; exact Relation.ReflTransGen.refl
  | cons b bs ih =>
    intro s
    refine Relation.ReflTransGen.head ?_ (ih _)
    cases b with
    | false => exact Or.inr (Or.inl rfl)
    | true => exact Or.inl rfl

lemma reachRC_runSched (id : Nat) (e : Env) :
    ∀ (bs : List Bool) (s : Sys), Relation.ReflTransGen (StepRC id e) s (runSched id e s bs) := by
  intro bs
  induction bs with
  | nil => intro s; exact Relation.ReflTransGen.refl
  | cons b bs ih =>
    intro s
    refine Relation.ReflTransGen.head ?_ (ih _)
    cases b with
    | false => exact Or.inr rfl
    | true => exact Or.inl rfl

lemma reachRJ_iter (id : Nat) (e : Env) :
    ∀ (n : Nat) (s : Sys),
      Relation.ReflTransGen (StepRJ id e) s ((runnerStep id e)^[n] s) := by
  intro n
  induction n with
  | zero => intro s; exact Relation.ReflTransGen.refl
  | succ n ih =>
    intro s
    rw [Function.iterate_succ_apply]
    exact Relation.ReflTransGen.head (Or.inl rfl) (ih _)

/-- Exception-free successful run of the sequential Job Runner: the final
record read back from the registry is `completed` and carries exactly the
result metadata computed at lines 196-212. -/
lemma run_success (m : Registry) (procs : ProcSet) (id : Nat) (e : Env) (now : Nat)
    (hf : e.fault = Fault.none) (hrc : e.rc = 0) :
    ∃ r, (process_video_async m procs id e now).1.lookup id = some r ∧
      r.status = Status.completed ∧
      r.progress = some 100 ∧
      r.compression_ratio =
        some (compression_ratio (size_mb e.originalBytes) (size_mb e.compressedBytes)) ∧
      r.compression_percent =
        some (compression_percent (size_mb e.originalBytes) (size_mb e.compressedBytes)) ∧
      r.original_size = some (size_mb e.originalBytes) ∧
      r.compressed_size = some (size_mb e.compressedBytes) ∧
      r.output_filename = some e.output_filename := by
  have h2 := lookup_update_self
    (update_job_status m id now .processing { progress := some 0 }) id now .processing
    { progress := some 10, original_info_size := some (size_mb e.originalBytes) }
  have hst : (get_job_status
      (update_job_status (update_job_status m id now .processing { progress := some 0 })
        id now .processing
        { progress := some 10, original_info_size := some (size_mb e.originalBytes) })
      id).map JobRecord.status = some Status.processing := by
    rw [get_job_status, h2]
    cases (update_job_status m id now .processing { progress := some 0 }).lookup id <;> rfl
  have h3 := lookup_update_self
    (update_job_status (update_job_status m id now .processing { progress := some 0 })
      id now .processing
      { progress := some 10, original_info_size := some (size_mb e.originalBytes) })
    id now .completed
    { progress := some 100
      message := some "Compression complete"
      original_size := some (size_mb e.originalBytes)
      compressed_size := some (size_mb e.compressedBytes)
      compression_ratio := some (compression_ratio (size_mb e.originalBytes)
        (size_mb e.compressedBytes))
      compression_percent := some (compression_percent (size_mb e.originalBytes)
        (size_mb e.compressedBytes))
      output_filename := some e.output_filename }
  have hpv : (process_video_async m procs id e now).1 =
      update_job_status
        (update_job_status (update_job_status m id now .processing { progress := some 0 })
          id now .processing
          { progress := some 10, original_info_size := some (size_mb e.originalBytes) })
        id now .completed
        { progress := some 100
          message := some "Compression complete"
          original_size := some (size_mb e.originalBytes)
          compressed_size := some (size_mb e.compressedBytes)
          compression_ratio := some (compression_ratio (size_mb e.originalBytes)
            (size_mb e.compressedBytes))
          compression_percent := some (compression_percent (size_mb e.originalBytes)
            (size_mb e.compressedBytes))
          output_filename := some e.output_filename } := by
    unfold process_video_async runner_after_encoder
    rw [hf, hrc]
    simp only [hst]
    simp
  rw [hpv, h3]
  cases (update_job_status (update_job_status m id now .processing { progress := some 0 })
      id now .processing
      { progress := some 10, original_info_size := some (size_mb e.originalBytes) }).lookup id
  · exact ⟨_, rfl, rfl, rfl, rfl, rfl, rfl, rfl, rfl⟩
  · exact ⟨_, rfl, rfl, rfl, rfl, rfl, rfl, rfl, rfl⟩

/-- C2: after the Encoder invocation returns, if the job record's status
reads `cancelled`, the Job Runner unregisters the handle, best-effort
deletes the output artifact (the file survives only if the deletion
failed, the failure being swallowed), and returns with the registry
untouched — `cancelled` is never overwritten with `failed` or
`completed`. -/
theorem runner_reread_cancelled_preserves_status
    (m : Registry) (procs : ProcSet) (id now : Nat) (e : Env) (f : Bool) (r : JobRecord)
    (hr : get_job_status m id = some r) (hc : r.status = Status.cancelled) :
    runner_after_encoder m procs id now e f =
      (m, unregister_process procs id, f && !e.deleteOk) := by
  unfold runner_after_encoder
  rw [hr]
  simp [hc]

/-- Witness for C2 at a concrete cancelled record. -/
theorem runner_reread_cancelled_preserves_status_witness :
    get_job_status [(0, ({ status := .cancelled, updated_at := 3 } : JobRecord))] 0 =
      some { status := .cancelled, updated_at := 3 } ∧
    runner_after_encoder [(0, ({ status := .cancelled, updated_at := 3 } : JobRecord))]
        [0] 0 9 e0 true =
      ([(0, { status := .cancelled, updated_at := 3 })], unregister_process [0] 0,
        true && !e0.deleteOk) :=
  ⟨rfl, runner_reread_cancelled_preserves_status _ _ _ _ _ _ _ rfl rfl⟩

/-- C4 counterexample: `update_job_status` on an id absent from the
registry does not fail — it inserts a brand-new record for that id
(lines 68-69 create `active_jobs[job_id] = {}` before merging). -/
theorem update_unknown_id_inserts_cex :
    (([] : Registry).lookup 7 = none) ∧
    update_job_status ([] : Registry) 7 5 Status.processing {} =
      [(7, freshJob Status.processing 5 {})] ∧
    (update_job_status ([] : Registry) 7 5 Status.processing {}).lookup 7 ≠ none := by
  refine ⟨rfl, rfl, ?_⟩
  decide

/-- C4 amended: the registry's update operation on an unknown id never
fails with NotFound; instead it creates a new record holding exactly the
given fields, leaving every other entry unchanged (upsert semantics). -/
theorem update_unknown_id_upserts (m : Registry) (id now : Nat) (st : Status) (u : JobUpdate)
    (h : m.lookup id = none) :
    (update_job_status m id now st u).lookup id = some (freshJob st now u) ∧
    ∀ id', id' ≠ id → (update_job_status m id now st u).lookup id' = m.lookup id' := by
  constructor
  · have hx := lookup_update_self m id now st u
    rw [h] at hx
    simpa using hx
  · intro id' h'
    exact lookup_update_ne m id id' now st u h'

/-- Witness for C4's amended statement at a concrete registry. -/
theorem update_unknown_id_upserts_witness :
    ([(1, ({ status := .queued, updated_at := 0 } : JobRecord))] : Registry).lookup 2 = none ∧
    ((update_job_status [(1, ({ status := .queued, updated_at := 0 } : JobRecord))]
        2 5 Status.processing {}).lookup 2 = some (freshJob Status.processing 5 {}) ∧
      ∀ id', id' ≠ 2 →
        (update_job_status [(1, ({ status := .queued, updated_at := 0 } : JobRecord))]
          2 5 Status.processing {}).lookup id' =
        ([(1, ({ status := .queued, updated_at := 0 } : JobRecord))] : Registry).lookup id') :=
  ⟨by decide, update_unknown_id_upserts _ 2 5 Status.processing {} (by decide)⟩

/-- C8: the janitor sweep `clean_old_jobs` removes exactly the records
that are terminal and strictly older than the 3600-second window —
non-terminal records of any age and recent terminal records survive,
records are never modified, and a second sweep at the same time is a
no-op. -/
theorem sweep_exact_and_idempotent (m : Registry) (now : Nat) :
    (∀ p : Nat × JobRecord, p ∈ clean_old_jobs m now ↔
      p ∈ m ∧ ¬(p.2.status.isTerminal = true ∧ 3600 < now - p.2.updated_at)) ∧
    clean_old_jobs (clean_old_jobs m now) now = clean_old_jobs m now := by
  constructor
  · intro p
    unfold clean_old_jobs
    rw [List.mem_filter]
    constructor
    · rintro ⟨hm, hp⟩
      refine ⟨hm, ?_⟩
      rintro ⟨ht, hage⟩
      rw [ht] at hp
      simp [hage] at hp
    · rintro ⟨hm, hp⟩
      refine ⟨hm, ?_⟩
      by_cases ht : Status.isTerminal p.2.status = true
      · by_cases hage : 3600 < now - p.2.updated_at
        · exact absurd ⟨ht, hage⟩ hp
        · simp [ht, hage]
      · simp [Bool.not_eq_true] at ht
        simp [ht]
  · unfold clean_old_jobs
    rw [List.filter_eq_self]
    intro a ha
    exact (List.mem_filter.mp ha).2

/-- Witness for C8 at a concrete registry: an old completed job is
evicted, a fresh failed job and an old processing job survive. -/
theorem sweep_exact_and_idempotent_witness :
    ((0, ({ status := .completed, updated_at := 0 } : JobRecord)) ∈
        clean_old_jobs
          [(0, ({ status := .completed, updated_at := 0 } : JobRecord)),
           (1, ({ status := .failed, updated_at := 4000 } : JobRecord)),
           (2, ({ status := .processing, updated_at := 0 } : JobRecord))] 5000 ↔
      (0, ({ status := .completed, updated_at := 0 } : JobRecord)) ∈
          ([(0, ({ status := .completed, updated_at := 0 } : JobRecord)),
            (1, ({ status := .failed, updated_at := 4000 } : JobRecord)),
            (2, ({ status := .processing, updated_at := 0 } : JobRecord))] : Registry) ∧
        ¬(Status.isTerminal Status.completed = true ∧ 3600 < 5000 - 0)) ∧
    clean_old_jobs
        (clean_old_jobs
          [(0, ({ status := .completed, updated_at := 0 } : JobRecord)),
           (1, ({ status := .failed, updated_at := 4000 } : JobRecord)),
           (2, ({ status := .processing, updated_at := 0 } : JobRecord))] 5000) 5000 =
      clean_old_jobs
        [(0, ({ status := .completed, updated_at := 0 } : JobRecord)),
         (1, ({ status := .failed, updated_at := 4000 } : JobRecord)),
         (2, ({ status := .processing, updated_at := 0 } : JobRecord))] 5000 :=
  ⟨(sweep_exact_and_idempotent _ 5000).1 _, (sweep_exact_and_idempotent _ 5000).2⟩

/-- C5: on a job whose status is `queued` or `processing`, `cancel_job`
returns success, and by then the job record already reads `cancelled`
with the explanatory message — unconditionally, whatever the process
registry contains and whether or not the kill attempt succeeds. -/
theorem cancel_active_job_sets_cancelled
    (m : Registry) (procs : ProcSet) (id : Nat) (killOk : Bool) (now : Nat) (job : JobRecord)
    (hj : m.lookup id = some job)
    (hs : job.status = Status.queued ∨ job.status = Status.processing) :
    (cancel_job m procs id killOk now).1 = CancelResult.success ∧
    ∃ r, (cancel_job m procs id killOk now).2.lookup id = some r ∧
      r.status = Status.cancelled ∧ r.message = some "Job cancelled by user" := by
  have hin : job.status ∈ [Status.queued, Status.processing] := by
    rcases hs with h | h <;> simp [h]
  have hcj : cancel_job m procs id killOk now =
      (.success,
        update_job_status m id now .cancelled { message := some "Job cancelled by user" }) := by
    unfold cancel_job
    rw [hj]
    simp [hin]
  have h2 := lookup_update_self m id now .cancelled { message := some "Job cancelled by user" }
  rw [hj] at h2
  rw [hcj]
  exact ⟨rfl, _, h2, rfl, rfl⟩

/-- Witness for C5: cancelling a concrete `processing` job with no
registered handle (`cancel_process` returns `False`) still succeeds and
cancels the record. -/
theorem cancel_active_job_sets_cancelled_witness :
    ([(4, ({ status := .processing, updated_at := 1 } : JobRecord))] : Registry).lookup 4 =
      some { status := .processing, updated_at := 1 } ∧
    ((cancel_job [(4, ({ status := .processing, updated_at := 1 } : JobRecord))]
        [] 4 false 9).1 = CancelResult.success ∧
      ∃ r, (cancel_job [(4, ({ status := .processing, updated_at := 1 } : JobRecord))]
          [] 4 false 9).2.lookup 4 = some r ∧
        r.status = Status.cancelled ∧ r.message = some "Job cancelled by user") :=
  ⟨by decide, cancel_active_job_sets_cancelled _ [] 4 false 9 _ rfl (Or.inr rfl)⟩

/-- C6: `cancel_job` answers NotFound on an unknown id, and InvalidState
on a terminal job; in both cases the registry — hence the job record —
is returned entirely unchanged. -/
theorem cancel_notfound_invalidstate
    (m : Registry) (procs : ProcSet) (id : Nat) (killOk : Bool) (now : Nat) :
    (m.lookup id = none →
      cancel_job m procs id killOk now = (CancelResult.notFound, m)) ∧
    (∀ job, m.lookup id = some job → job.status.isTerminal = true →
      cancel_job m procs id killOk now = (CancelResult.invalidState job.status, m)) := by
  constructor
  · intro h
    unfold cancel_job
    rw [h]
  · intro job hj ht
    have hnin : job.status ∉ [Status.queued, Status.processing] := by
      cases hst : job.status <;> rw [hst] at ht <;> simp_all [Status.isTerminal]
    unfold cancel_job
    rw [hj]
    simp [hnin]

/-- Witness for C6: unknown id 7 on an empty registry, and a concrete
completed job. -/
theorem cancel_notfound_invalidstate_witness :
    cancel_job ([] : Registry) [] 7 true 5 = (CancelResult.notFound, []) ∧
    cancel_job [(3, ({ status := .completed, updated_at := 2 } : JobRecord))] [] 3 true 5 =
      (CancelResult.invalidState Status.completed,
        [(3, ({ status := .completed, updated_at := 2 } : JobRecord))]) :=
  ⟨(cancel_notfound_invalidstate [] [] 7 true 5).1 rfl,
    (cancel_notfound_invalidstate
        [(3, ({ status := .completed, updated_at := 2 } : JobRecord))] [] 3 true 5).2
      ({ status := .completed, updated_at := 2 } : JobRecord) rfl rfl⟩

/-- C7: on the Job Runner's completion path the recorded compression
ratio is `original_size / compressed_size` except that it is 0 when the
compressed size is 0, and the recorded percent reduction is
`(original - compressed) / original * 100` except that it is 0 when the
original size is 0 — the division is guarded in both cases, never
performed on a zero denominator. -/
theorem completed_ratio_percent_guarded
    (m : Registry) (procs : ProcSet) (id : Nat) (e : Env) (now : Nat)
    (hf : e.fault = Fault.none) (hrc : e.rc = 0) :
    ∃ r, (process_video_async m procs id e now).1.lookup id = some r ∧
      r.status = Status.completed ∧
      r.compression_ratio = some (if size_mb e.compressedBytes = 0 then 0
        else size_mb e.originalBytes / size_mb e.compressedBytes) ∧
      r.compression_percent = some (if size_mb e.originalBytes = 0 then 0
        else (size_mb e.originalBytes - size_mb e.compressedBytes) / size_mb e.originalBytes
          * 100) := by
  obtain ⟨r, hlk, hst, _, hratio, hpercent, _, _, _⟩ := run_success m procs id e now hf hrc
  refine ⟨r, hlk, hst, ?_, ?_⟩
  · rw [hratio, ratio_zero_guard _ _ (size_mb_nonneg _)]
  · rw [hpercent, percent_zero_guard _ _ (size_mb_nonneg _)]

/-- Witness for C7: a 2 MiB input compressed to 1 MiB ends `completed`
with ratio 2 and percent 50. -/
theorem completed_ratio_percent_guarded_witness :
    ∃ r, (process_video_async [] [] 0
        { e0 with originalBytes := 2097152, compressedBytes := 1048576 } 5).1.lookup 0 =
        some r ∧
      r.status = Status.completed ∧
      r.compression_ratio = some (if size_mb 1048576 = 0 then 0
        else size_mb 2097152 / size_mb 1048576) ∧
      r.compression_percent = some (if size_mb 2097152 = 0 then 0
        else (size_mb 2097152 - size_mb 1048576) / size_mb 2097152 * 100) :=
  completed_ratio_percent_guarded [] [] 0
    { e0 with originalBytes := 2097152, compressedBytes := 1048576 } 5 rfl rfl

/-- C10 counterexample: an Encoder "success" turning a 0-byte input into
a 1 MiB output still completes, but the recorded percent reduction is 0,
not strictly negative (the `original_size > 0` guard of line 200 fires),
refuting the claim that the percent is negative whenever the output is
larger than the input. -/
theorem larger_output_percent_zero_cex :
    0 < (({ e0 with originalBytes := 0, compressedBytes := 1048576 } : Env)).compressedBytes ∧
    (({ e0 with originalBytes := 0, compressedBytes := 1048576 } : Env)).originalBytes = 0 ∧
    ((process_video_async [] [] 0
        { e0 with originalBytes := 0, compressedBytes := 1048576 } 5).1.lookup 0).map
      JobRecord.status = some Status.completed ∧
    ((process_video_async [] [] 0
        { e0 with originalBytes := 0, compressedBytes := 1048576 } 5).1.lookup 0).bind
      JobRecord.compression_percent = some 0 := by
  obtain ⟨r, hlk, hst, _, _, hpercent, _, _, _⟩ := run_success [] [] 0
    { e0 with originalBytes := 0, compressedBytes := 1048576 } 5 rfl rfl
  refine ⟨by decide, rfl, ?_, ?_⟩
  · rw [hlk, Option.map_some', hst]
  · rw [hlk, Option.some_bind, hpercent]
    have hz : size_mb ({ e0 with originalBytes := 0, compressedBytes := 1048576 } :
        Env).originalBytes = 0 := by
      norm_num [size_mb]
    rw [hz]
    unfold compression_percent
    rw [if_neg (lt_irrefl 0)]

/-- C10 amended: when the Encoder succeeds and the compressed output is
larger than a NON-EMPTY original input, the job completes with a
compression ratio strictly below 1 and a strictly negative percent
reduction (no clamping at 0); if the original input has size 0 the
recorded percent is 0 instead (see the counterexample). -/
theorem larger_output_negative_percent
    (m : Registry) (procs : ProcSet) (id : Nat) (e : Env) (now : Nat)
    (hf : e.fault = Fault.none) (hrc : e.rc = 0)
    (h0 : 0 < e.originalBytes) (hlt : e.originalBytes < e.compressedBytes) :
    ∃ r q p, (process_video_async m procs id e now).1.lookup id = some r ∧
      r.status = Status.completed ∧
      r.compression_ratio = some q ∧ q < 1 ∧
      r.compression_percent = some p ∧ p < 0 := by
  obtain ⟨r, hlk, hst, _, hratio, hpercent, _, _, _⟩ := run_success m procs id e now hf hrc
  have ho : 0 < size_mb e.originalBytes := size_mb_pos _ h0
  have hc : 0 < size_mb e.compressedBytes := size_mb_pos _ (lt_trans h0 hlt)
  have holt : size_mb e.originalBytes < size_mb e.compressedBytes := size_mb_lt _ _ hlt
  refine ⟨r, _, _, hlk, hst, hratio, ?_, hpercent, ?_⟩
  · unfold compression_ratio
    rw [if_pos hc]
    rw [div_lt_one hc]
    exact holt
  · unfold compression_percent
    rw [if_pos ho]
    have hsub : size_mb e.originalBytes - size_mb e.compressedBytes < 0 := sub_neg.mpr holt
    have hdiv : (size_mb e.originalBytes - size_mb e.compressedBytes) / size_mb e.originalBytes
        < 0 := div_neg_of_neg_of_pos hsub ho
    have h100 : (0 : ℚ) < 100 := by norm_num
    exact mul_neg_of_neg_of_pos hdiv h100

/-- Witness for C10's amended statement: 1 byte in, 2 bytes out. -/
theorem larger_output_negative_percent_witness :
    ∃ r q p, (process_video_async [] [] 0
        { e0 with originalBytes := 1, compressedBytes := 2 } 5).1.lookup 0 = some r ∧
      r.status = Status.completed ∧
      r.compression_ratio = some q ∧ q < 1 ∧
      r.compression_percent = some p ∧ p < 0 :=
  larger_output_negative_percent [] [] 0
    { e0 with originalBytes := 1, compressedBytes := 2 } 5 rfl rfl (by decide) (by decide)

/-- Every exit path of the sequential runner — normal completion, FFmpeg
failure, cancellation branch, and each fault point — leaves no process
handle registered for the job. -/
lemma runner_unregisters (m : Registry) (procs : ProcSet) (id : Nat) (e : Env) (now : Nat) :
    id ∉ (process_video_async m procs id e now).2.1 := by
  unfold process_video_async runner_after_encoder
  dsimp only
  split_ifs <;> exact not_mem_unregister _ _

/-- Each system step preserves the handle-window invariant: the handle is
registered exactly while the runner sits between its `register_process`
and `unregister_process` calls. -/
lemma proc_window_step (id : Nat) (e : Env) (s s' : Sys) (h : Step id e s s')
    (ih : s.proc = true ↔ (s.rpc = RPc.encoderWait ∨ s.rpc = RPc.unregisterProc)) :
    s'.proc = true ↔ (s'.rpc = RPc.encoderWait ∨ s'.rpc = RPc.unregisterProc) := by
  rcases h with h | h | ⟨t, h⟩
  · subst h
    unfold runnerStep
    cases hr : s.rpc <;> rw [hr] at ih <;> try simp_all
    split_ifs <;> simp_all
  · subst h
    unfold cancelStep
    cases hc : s.cpc <;> try simp_all
    cases hlk : get_job_status s.reg id <;> try simp_all
    split_ifs <;> simp_all
  · subst h
    simpa [janitorStep] using ih

/-- Handle-window invariant along every reachable state. -/
lemma proc_window (id : Nat) (e : Env) :
    ∀ s, Relation.ReflTransGen (Step id e) (initSys id) s →
      (s.proc = true ↔ (s.rpc = RPc.encoderWait ∨ s.rpc = RPc.unregisterProc)) := by
  intro s hs
  induction hs with
  | refl => simp [initSys]
  | tail _ hstep ih => exact proc_window_step _ _ _ _ hstep ih

/-- C9: first, on every exit path of the Job Runner — normal completion,
Encoder failure, cancellation, and every unexpected-exception point —
the process handle is unregistered once the Encoder invocation has
returned, so no handle remains for the job id afterwards; second, in the
interleaved system a handle is registered exactly while the runner is
inside the Encoder-invocation window (between `register_process` and
`unregister_process`). -/
theorem handle_unregistered_every_path :
    (∀ (m : Registry) (procs : ProcSet) (id : Nat) (e : Env) (now : Nat),
      id ∉ (process_video_async m procs id e now).2.1) ∧
    (∀ (id : Nat) (e : Env) (s : Sys), Relation.ReflTransGen (Step id e) (initSys id) s →
      (s.proc = true ↔ (s.rpc = RPc.encoderWait ∨ s.rpc = RPc.unregisterProc))) :=
  ⟨runner_unregisters, proc_window⟩

/-- Witness for C9: a concrete run starting with a stale handle, and the
reachable state right after registration (handle present, Encoder
running). -/
theorem handle_unregistered_every_path_witness :
    0 ∉ (process_video_async [] [0] 0 e0 5).2.1 ∧
    ((runSched 0 e0 (initSys 0) [true, true, true]).proc = true ↔
      ((runSched 0 e0 (initSys 0) [true, true, true]).rpc = RPc.encoderWait ∨
        (runSched 0 e0 (initSys 0) [true, true, true]).rpc = RPc.unregisterProc)) :=
  ⟨handle_unregistered_every_path.1 [] [0] 0 e0 5,
    handle_unregistered_every_path.2 0 e0 _ (reach_runSched 0 e0 [true, true, true] (initSys 0))⟩

/-- C1 counterexample: the cancel endpoint runs to completion first —
snapshot reads `queued`, no handle so the kill attempt is a no-op, the
record is set to `cancelled` and success is returned — and only then does
the already-spawned runner thread execute: its first write (line 119)
overwrites `cancelled` with `processing`, step 6 therefore reads
`processing`, and the job finishes `completed` even though `cancel()`
returned success. -/
theorem cancel_success_then_completed_cex :
    Relation.ReflTransGen (Step 0 e0) (initSys 0) cexFinal ∧
    cexFinal.cres = some CancelResult.success ∧
    (get_job_status cexFinal.reg 0).map JobRecord.status = some Status.completed ∧
    cexFinal.rpc = RPc.done ∧ cexFinal.cpc = CPc.cdone :=
  ⟨(reach_runSched 0 e0 [false, false, false] (initSys 0)).trans
      (reach_runSched 0 e0 [true, true, true, true, true, true, true] cexCancelled),
    by decide, by decide, by decide, by decide⟩

/-- Once the record reads `cancelled`, the cancel endpoint is finished,
and the runner is past its `processing` writes but no further than its
step-6 status read, every runner/cancel step preserves all of that. -/
lemma cancelled_sticky_step (id : Nat) (e : Env) (s s' : Sys) (h : StepRC id e s s')
    (ih : (get_job_status s.reg id).map JobRecord.status = some Status.cancelled ∧
      s.cpc = CPc.cdone ∧
      (s.rpc = RPc.registerProc ∨ s.rpc = RPc.encoderWait ∨ s.rpc = RPc.unregisterProc ∨
        s.rpc = RPc.reread ∨ s.rpc = RPc.done)) :
    (get_job_status s'.reg id).map JobRecord.status = some Status.cancelled ∧
      s'.cpc = CPc.cdone ∧
      (s'.rpc = RPc.registerProc ∨ s'.rpc = RPc.encoderWait ∨ s'.rpc = RPc.unregisterProc ∨
        s'.rpc = RPc.reread ∨ s'.rpc = RPc.done) := by
  obtain ⟨hst, hcpc, hrpc⟩ := ih
  rcases h with h | h
  · subst h
    unfold runnerStep
    rcases hrpc with h | h | h | h | h
    · rw [h]
      exact ⟨hst, hcpc, Or.inr (Or.inl rfl)⟩
    · rw [h]
      exact ⟨hst, hcpc, Or.inr (Or.inr (Or.inl rfl))⟩
    · rw [h]
      exact ⟨hst, hcpc, Or.inr (Or.inr (Or.inr (Or.inl rfl)))⟩
    · rw [h]
      rw [if_pos hst]
      exact ⟨hst, hcpc, Or.inr (Or.inr (Or.inr (Or.inr rfl)))⟩
    · rw [h]
      exact ⟨hst, hcpc, Or.inr (Or.inr (Or.inr (Or.inr h)))⟩
  · subst h
    unfold cancelStep
    rw [hcpc]
    exact ⟨hst, hcpc, hrpc⟩

/-- C1 amended: if at the moment `cancel()` has returned success the
runner has already passed its initial `processing` writes (so the record
genuinely reads `cancelled`) and has not yet gone beyond its step-6
status read, then the record reads `cancelled` at every later point of
the runner/cancel interleaving — the cancellation is never overwritten
with `completed` or `failed`.  Without that timing window the
cancellation can be lost (see the counterexample): a cancel completing
before the runner's first write, or landing between the step-6 read and
the terminal write, is overwritten. -/
theorem cancel_observed_before_reread_wins (id : Nat) (e : Env) (s : Sys)
    (h1 : s.cpc = CPc.cdone) (h2 : s.cres = some CancelResult.success)
    (h3 : (get_job_status s.reg id).map JobRecord.status = some Status.cancelled)
    (h4 : s.rpc = RPc.registerProc ∨ s.rpc = RPc.encoderWait ∨ s.rpc = RPc.unregisterProc ∨
      s.rpc = RPc.reread ∨ s.rpc = RPc.done) :
    ∀ t, Relation.ReflTransGen (StepRC id e) s t →
      (get_job_status t.reg id).map JobRecord.status = some Status.cancelled := by
  intro t ht
  have key : (get_job_status t.reg id).map JobRecord.status = some Status.cancelled ∧
      t.cpc = CPc.cdone ∧
      (t.rpc = RPc.registerProc ∨ t.rpc = RPc.encoderWait ∨ t.rpc = RPc.unregisterProc ∨
        t.rpc = RPc.reread ∨ t.rpc = RPc.done) := by
    induction ht with
    | refl => exact ⟨h3, h1, h4⟩
    | tail _ hstep ih => exact cancelled_sticky_step id e _ _ hstep ih
  exact key.1

/-- Witness for C1's amended statement: cancel lands while the Encoder is
running; the runner then finishes and honors the cancellation. -/
theorem cancel_observed_before_reread_wins_witness :
    (cexMidCancel.cpc = CPc.cdone ∧ cexMidCancel.cres = some CancelResult.success ∧
      (get_job_status cexMidCancel.reg 0).map JobRecord.status = some Status.cancelled ∧
      cexMidCancel.rpc = RPc.encoderWait) ∧
    (get_job_status (runSched 0 e0 cexMidCancel [true, true, true]).reg 0).map
      JobRecord.status = some Status.cancelled :=
  ⟨⟨by decide, by decide, by decide, by decide⟩,
    cancel_observed_before_reread_wins 0 e0 cexMidCancel (by decide) (by decide) (by decide)
      (Or.inr (Or.inl (by decide))) _
      (reachRC_runSched 0 e0 [true, true, true] cexMidCancel)⟩

/-- C3 counterexample: a record already terminal (`cancelled`, written by
a completed cancel request) is overwritten with non-terminal
`processing` by the runner's very next step — `update_job_status` has no
monotonicity guard, so the system does regress from a terminal state. -/
theorem terminal_regression_cex :
    Relation.ReflTransGen (Step 0 e0) (initSys 0) cexCancelled ∧
    Step 0 e0 cexCancelled (runnerStep 0 e0 cexCancelled) ∧
    (get_job_status cexCancelled.reg 0).map JobRecord.status = some Status.cancelled ∧
    Status.isTerminal Status.cancelled = true ∧
    (get_job_status (runnerStep 0 e0 cexCancelled).reg 0).map JobRecord.status =
      some Status.processing :=
  ⟨reach_runSched 0 e0 [false, false, false] (initSys 0), Or.inl rfl,
    by decide, rfl, by decide⟩

lemma update_singleton (id now : Nat) (st : Status) (u : JobUpdate) (r : JobRecord) :
    update_job_status [(id, r)] id now st u = [(id, mergeJob r st now u)] := by
  unfold update_job_status
  rw [List.lookup_cons_self]
  simp

lemma clean_singleton (id now : Nat) (r : JobRecord) :
    clean_old_jobs [(id, r)] now =
      if (Status.isTerminal r.status && decide (3600 < now - r.updated_at)) = true
      then [] else [(id, r)] := by
  unfold clean_old_jobs
  by_cases hb : (Status.isTerminal r.status && decide (3600 < now - r.updated_at)) = true
  · rw [if_pos hb]
    simp [List.filter, hb]
  · rw [if_neg hb]
    simp only [Bool.not_eq_true] at hb
    simp [List.filter, hb]

/-- Invariant of the one-job system without cancel steps: the registry is
empty or the single record of this job, and that record is non-terminal
until the runner has performed its terminal write and moved to `done`. -/
lemma inv3_step (id : Nat) (e : Env) (s s' : Sys) (h : StepRJ id e s s')
    (ihS : s.reg = [] ∨ ∃ r, s.reg = [(id, r)])
    (ihN : s.rpc ≠ RPc.done →
      ∀ r, s.reg.lookup id = some r → r.status.isTerminal = false) :
    (s'.reg = [] ∨ ∃ r, s'.reg = [(id, r)]) ∧
      (s'.rpc ≠ RPc.done →
        ∀ r, s'.reg.lookup id = some r → r.status.isTerminal = false) := by
  have hWrite : ∀ (now : Nat) (st : Status) (u : JobUpdate),
      (update_job_status s.reg id now st u = [] ∨
        ∃ r, update_job_status s.reg id now st u = [(id, r)]) ∧
      ∀ r, (update_job_status s.reg id now st u).lookup id = some r → r.status = st := by
    intro now st u
    rcases ihS with hnil | ⟨r0, hsing⟩
    · rw [hnil]
      constructor
      · exact Or.inr ⟨_, rfl⟩
      · intro r hr
        rw [show update_job_status [] id now st u = [(id, freshJob st now u)] from rfl] at hr
        rw [List.lookup_cons_self] at hr
        cases hr
        rfl
    · rw [hsing, update_singleton]
      constructor
      · exact Or.inr ⟨_, rfl⟩
      · intro r hr
        rw [List.lookup_cons_self] at hr
        cases hr
        rfl
  rcases h with h | ⟨t, h⟩
  · subst h
    unfold runnerStep
    cases hr : s.rpc
    case setProcessing0 =>
      refine ⟨(hWrite s.clock .processing _).1, fun _ r hlk => ?_⟩
      rw [(hWrite s.clock .processing _).2 r hlk]
      rfl
    case setProcessing10 =>
      refine ⟨(hWrite s.clock .processing _).1, fun _ r hlk => ?_⟩
      rw [(hWrite s.clock .processing _).2 r hlk]
      rfl
    case registerProc => exact ⟨ihS, fun _ => ihN (by rw [hr]; intro hc; cases hc)⟩
    case encoderWait => exact ⟨ihS, fun _ => ihN (by rw [hr]; intro hc; cases hc)⟩
    case unregisterProc => exact ⟨ihS, fun _ => ihN (by rw [hr]; intro hc; cases hc)⟩
    case reread =>
      split_ifs <;>
        exact ⟨ihS, fun _ => ihN (by rw [hr]; intro hc; cases hc)⟩
    case setFailed =>
      exact ⟨(hWrite s.clock .failed _).1, fun hcontra => absurd rfl hcontra⟩
    case setCompleted =>
      exact ⟨(hWrite s.clock .completed _).1, fun hcontra => absurd rfl hcontra⟩
    case done => exact ⟨ihS, ihN⟩
  · subst h
    unfold janitorStep
    rcases ihS with hnil | ⟨r0, hsing⟩
    · rw [hnil]
      exact ⟨Or.inl rfl, fun _ r hr => by simp [clean_old_jobs] at hr⟩
    · rw [hsing, clean_singleton]
      by_cases hb : (Status.isTerminal r0.status && decide (3600 < t - r0.updated_at)) = true
      · rw [if_pos hb]
        exact ⟨Or.inl rfl, fun _ r hr => by simp at hr⟩
      · rw [if_neg hb]
        refine ⟨Or.inr ⟨_, rfl⟩, fun hd r hr => ?_⟩
        rw [List.lookup_cons_self] at hr
        cases hr
        exact ihN hd r0 (by rw [hsing, List.lookup_cons_self])

lemma inv3 (id : Nat) (e : Env) :
    ∀ s, Relation.ReflTransGen (StepRJ id e) (initSys id) s →
      (s.reg = [] ∨ ∃ r, s.reg = [(id, r)]) ∧
      (s.rpc ≠ RPc.done →
        ∀ r, s.reg.lookup id = some r → r.status.isTerminal = false) := by
  intro s hs
  induction hs with
  | refl =>
    constructor
    · exact Or.inr ⟨_, rfl⟩
    · intro _ r hr
      have : (initSys id).reg = [(id, freshJob .queued 0
          { filename := some "a.mp4"
            input_path := some "uploads/a.mp4"
            output_path := some "compressed/compressed_a.mp4" })] := rfl
      rw [this, List.lookup_cons_self] at hr
      cases hr
      rfl
  | tail _ hstep ih => exact inv3_step id e _ _ hstep ih.1 ih.2

/-- C3 amended: in executions with no concurrent cancel request (runner
steps and janitor sweeps only), no job record ever regresses from a
terminal state: once the record reads `completed`, `failed` or
`cancelled`, any further step either leaves that status unchanged or
evicts the record entirely (janitor) — it is never set to `queued`,
`processing`, or a different terminal value.  With a concurrent cancel
request, regression does occur (see the counterexample). -/
theorem no_regression_without_cancel (id : Nat) (e : Env) (s : Sys)
    (hs : Relation.ReflTransGen (StepRJ id e) (initSys id) s)
    (v : Status) (hv : (get_job_status s.reg id).map JobRecord.status = some v)
    (hterm : v.isTerminal = true)
    (s' : Sys) (hstep : StepRJ id e s s') :
    (get_job_status s'.reg id).map JobRecord.status = some v ∨
      get_job_status s'.reg id = none := by
  obtain ⟨hshape, hnt⟩ := inv3 id e s hs
  obtain ⟨r, hr, hrv⟩ : ∃ r, s.reg.lookup id = some r ∧ r.status = v := by
    rcases Option.map_eq_some'.mp hv with ⟨r, hr, hrv⟩
    exact ⟨r, hr, hrv⟩
  have hdone : s.rpc = RPc.done := by
    by_contra hne
    have hfalse := hnt hne r hr
    rw [hrv, hterm] at hfalse
    cases hfalse
  rcases hstep with h | ⟨t, h⟩
  · subst h
    left
    unfold runnerStep
    rw [hdone]
    exact hv
  · subst h
    rcases hshape with hnil | ⟨r0, hsing⟩
    · rw [hnil] at hr
      cases hr
    · rw [hsing, List.lookup_cons_self] at hr
      cases hr
      unfold janitorStep get_job_status
      rw [hsing, clean_singleton]
      by_cases hb : (Status.isTerminal r.status && decide (3600 < t - r.updated_at)) = true
      · rw [if_pos hb]
        exact Or.inr rfl
      · rw [if_neg hb]
        left
        rw [List.lookup_cons_self, Option.map_some', hrv]

/-- Witness for C3's amended statement: the runner alone runs to
completion; the `completed` record then survives a further (stuttering)
runner step unchanged. -/
theorem no_regression_without_cancel_witness :
    (get_job_status ((runnerStep 0 e0)^[7] (initSys 0)).reg 0).map JobRecord.status =
      some Status.completed ∧
    ((get_job_status (runnerStep 0 e0 ((runnerStep 0 e0)^[7] (initSys 0))).reg 0).map
        JobRecord.status = some Status.completed ∨
      get_job_status (runnerStep 0 e0 ((runnerStep 0 e0)^[7] (initSys 0))).reg 0 = none) :=
  ⟨by decide,
    no_regression_without_cancel 0 e0 _ (reachRJ_iter 0 e0 7 (initSys 0))
      Status.completed (by decide) rfl _ (Or.inl rfl)⟩

end VideoCompressor
